import Mathlib

/-!
# Library management system: borrowing ledger and availability state machine

A shallow embedding of the persistent state and the operations of the
library web application (files `database.py`, `auth.py`, `member.py`).

The SQLite tables `users`, `books` and `borrowed_books` are embedded as
Lean lists of records, in row (insertion) order.  `AUTOINCREMENT` ids are
modelled by monotone counters carried in the state.  Timestamps
(`datetime.now()`) are modelled as natural numbers passed explicitly to
every operation that reads the clock.  Password hashing (the external
`bcrypt` library, treated by the spec as an opaque one-way capability) is
modelled by an abstract injective tagging function.
-/

namespace Library

/-- A row of the `users` table: `id, username (unique), password (hash), role`. -/
structure User where
  id : Nat
  username : String
  password : String
  role : String
deriving DecidableEq

/-- A row of the `books` table: `id, title, author, available`. -/
structure Book where
  id : Nat
  title : String
  author : String
  available : Bool
deriving DecidableEq

/-- A row of the `borrowed_books` table:
`id, user_id, book_id, borrowed_at, returned_at (nullable)`. -/
structure BorrowRecord where
  id : Nat
  user_id : Nat
  book_id : Nat
  borrowed_at : Nat
  returned_at : Option Nat
deriving DecidableEq

/-- The whole persistent state: the three tables in row order, plus the
`AUTOINCREMENT` counter of each table. -/
structure DB where
  users : List User
  books : List Book
  borrows : List BorrowRecord
  nextUserId : Nat
  nextBookId : Nat
  nextBorrowId : Nat
deriving DecidableEq

/-- `bcrypt.hashpw` in `hash_password` (`database.py`), modelled as an opaque
one-way tag on the plaintext; no claim depends on the hash contents. -/
def hash_password (password : String) : String :=
  "bcrypt$" ++ password

/-- `SELECT * FROM users WHERE username = ?` + `fetchone`
(`get_user_by_username`, `database.py`). -/
def get_user_by_username (db : DB) (username : String) : Option User :=
  db.users.find? (fun u => u.username == username)

/-- `SELECT * FROM users WHERE id = ?` + `fetchone` (`get_user_by_id`). -/
def get_user_by_id (db : DB) (user_id : Nat) : Option User :=
  db.users.find? (fun u => u.id == user_id)

/-- `create_user(username, password, role='member')` (`database.py`): inserts a
row with the hashed password; the `UNIQUE` constraint on `username` makes the
insert raise `IntegrityError` when the username is taken, in which case the
function returns `None` and the table is unchanged. -/
def create_user (db : DB) (username password role : String) : Option Nat × DB :=
  if db.users.any (fun u => u.username == username) then
    (none, db)
  else
    (some db.nextUserId,
     { db with
        users := db.users ++ [⟨db.nextUserId, username, hash_password password, role⟩],
        nextUserId := db.nextUserId + 1 })

/-- `create_user` with the Python default argument `role='member'`. -/
def create_user_default_role (db : DB) (username password : String) : Option Nat × DB :=
  create_user db username password "member"

/-- `SELECT * FROM books` (`get_all_books`, `database.py`). -/
def get_all_books (db : DB) : List Book :=
  db.books

/-- `SELECT * FROM books WHERE available = 1` (`get_available_books`). -/
def get_available_books (db : DB) : List Book :=
  db.books.filter (fun b => b.available)

/-- `SELECT * FROM books WHERE id = ?` + `fetchone` (`get_book_by_id`). -/
def get_book_by_id (db : DB) (book_id : Nat) : Option Book :=
  db.books.find? (fun b => b.id == book_id)

/-- `add_book(title, author)` (`database.py`): insert with `available = 1`,
returning `lastrowid`. -/
def add_book (db : DB) (title author : String) : Nat × DB :=
  (db.nextBookId,
   { db with
      books := db.books ++ [⟨db.nextBookId, title, author, true⟩],
      nextBookId := db.nextBookId + 1 })

/-- `update_book(book_id, title, author)` (`database.py`):
`UPDATE books SET title = ?, author = ? WHERE id = ?`. -/
def update_book (db : DB) (book_id : Nat) (title author : String) : DB :=
  { db with
     books := db.books.map (fun b =>
       if b.id == book_id then { b with title := title, author := author } else b) }

/-- `delete_book(book_id)` (`database.py`): first
`DELETE FROM borrowed_books WHERE book_id = ?`, then
`DELETE FROM books WHERE id = ?`. -/
def delete_book (db : DB) (book_id : Nat) : DB :=
  { db with
     borrows := db.borrows.filter (fun r => !(r.book_id == book_id)),
     books := db.books.filter (fun b => !(b.id == book_id)) }

/-- `borrow_book(user_id, book_id)` (`database.py`): reads the book row; if it
is absent or not available, returns `False` without writing; otherwise inserts
a `borrowed_books` row with `borrowed_at = now`, null `returned_at`, sets
`available = 0` on the book, and returns `True`.  `now` is the sampled clock. -/
def borrow_book (db : DB) (now user_id book_id : Nat) : Bool × DB :=
  match db.books.find? (fun b => b.id == book_id) with
  | none => (false, db)
  | some bk =>
    if !bk.available then
      (false, db)
    else
      (true,
       { db with
          borrows := db.borrows ++ [⟨db.nextBorrowId, user_id, book_id, now, none⟩],
          books := db.books.map (fun b =>
            if b.id == book_id then { b with available := false } else b),
          nextBorrowId := db.nextBorrowId + 1 })

/-- The Bool test `r.user_id == user_id AND r.book_id == book_id AND
r.returned_at IS NULL` used by `return_book`'s `SELECT`. -/
def activeFor (user_id book_id : Nat) (r : BorrowRecord) : Bool :=
  r.user_id == user_id && r.book_id == book_id && r.returned_at.isNone

/-- `return_book(user_id, book_id)` (`database.py`): looks up the active
borrow row matching both `user_id` and `book_id`; if none exists, returns
`False` without writing; otherwise sets that row's `returned_at = now`, sets
`available = 1` on the book, and returns `True`. -/
def return_book (db : DB) (now user_id book_id : Nat) : Bool × DB :=
  match db.borrows.find? (activeFor user_id book_id) with
  | none => (false, db)
  | some rec =>
    (true,
     { db with
        borrows := db.borrows.map (fun r =>
          if r.id == rec.id then { r with returned_at := some now } else r),
        books := db.books.map (fun b =>
          if b.id == book_id then { b with available := true } else b) })

/-- One row of the result of `get_borrowed_books_by_user`:
`SELECT b.id, b.title, b.author, bb.borrowed_at, bb.returned_at`. -/
structure HistoryRow where
  book_id : Nat
  title : String
  author : String
  borrowed_at : Nat
  returned_at : Option Nat
deriving DecidableEq

/-- One row of the result of `get_active_borrowed_books_by_user`:
`SELECT b.id, b.title, b.author, bb.borrowed_at`. -/
structure ActiveRow where
  book_id : Nat
  title : String
  author : String
  borrowed_at : Nat
deriving DecidableEq

/-- Stable insertion of `x` into a list sorted descending by `key`
(the element goes before the first strictly smaller key). -/
def insertDesc (key : α → Nat) (x : α) : List α → List α
  | [] => [x]
  | y :: ys => if key y ≤ key x then x :: y :: ys else y :: insertDesc key x ys

/-- `ORDER BY … DESC`: stable sort, descending by `key`. -/
def sortDesc (key : α → Nat) : List α → List α
  | [] => []
  | x :: xs => insertDesc key x (sortDesc key xs)

/-- `JOIN books b ON bb.book_id = b.id` for one ledger row, producing the
columns selected by `get_borrowed_books_by_user`. -/
def joinRow (books : List Book) (r : BorrowRecord) : List HistoryRow :=
  (books.filter (fun b => b.id == r.book_id)).map (fun b =>
    ⟨b.id, b.title, b.author, r.borrowed_at, r.returned_at⟩)

/-- `JOIN books b ON bb.book_id = b.id` for one ledger row, producing the
columns selected by `get_active_borrowed_books_by_user`. -/
def joinRowActive (books : List Book) (r : BorrowRecord) : List ActiveRow :=
  (books.filter (fun b => b.id == r.book_id)).map (fun b =>
    ⟨b.id, b.title, b.author, r.borrowed_at⟩)

/-- `get_borrowed_books_by_user(user_id)` (`database.py`): join of the user's
ledger rows (returned and active alike) with the book table,
`ORDER BY bb.borrowed_at DESC`. -/
def get_borrowed_books_by_user (db : DB) (user_id : Nat) : List HistoryRow :=
  sortDesc (fun e => e.borrowed_at)
    ((db.borrows.filter (fun r => r.user_id == user_id)).flatMap (joinRow db.books))

/-- `get_active_borrowed_books_by_user(user_id)` (`database.py`): join of the
user's ledger rows with null `returned_at` with the book table,
`ORDER BY bb.borrowed_at DESC`. -/
def get_active_borrowed_books_by_user (db : DB) (user_id : Nat) : List ActiveRow :=
  sortDesc (fun e => e.borrowed_at)
    ((db.borrows.filter (fun r => r.user_id == user_id && r.returned_at.isNone)).flatMap
      (joinRowActive db.books))

/-- Outcome of the member `borrow` route (`member.py`), distinguishing the
flash messages the route emits. -/
inductive BorrowOutcome where
  | bookNotFound
  | bookUnavailable
  | borrowed
  | failed
deriving DecidableEq

/-- The `borrow(book_id)` route of `member.py`: looks the book up
(`Book not found` when absent), checks `book['available']`
(`Book is not available` when falsy), then calls `borrow_book`. -/
def member_borrow (db : DB) (now user_id book_id : Nat) : BorrowOutcome × DB :=
  match get_book_by_id db book_id with
  | none => (.bookNotFound, db)
  | some bk =>
    if !bk.available then
      (.bookUnavailable, db)
    else
      match borrow_book db now user_id book_id with
      | (true, db1) => (.borrowed, db1)
      | (false, db1) => (.failed, db1)

/-- Outcome of the registration route (`auth.py`). -/
inductive RegisterOutcome where
  | missingField
  | passwordMismatch
  | passwordTooShort
  | usernameTaken
  | registered
deriving DecidableEq

/-- The `register` route of `auth.py` (POST branch): missing fields, password
confirmation and minimum length are checked, then `create_user` is called with
`role='member'` explicitly.  A missing form field is modelled as `""` (both
`None` and `''` are falsy in Python). -/
def register (db : DB) (username password confirm_password : String) :
    RegisterOutcome × DB :=
  if username == "" || password == "" then
    (.missingField, db)
  else if !(password == confirm_password) then
    (.passwordMismatch, db)
  else if password.length < 6 then
    (.passwordTooShort, db)
  else
    match create_user db username password "member" with
    | (some _, db1) => (.registered, db1)
    | (none, db1) => (.usernameTaken, db1)

/-- The state produced by `init_db()` + `seed_data()` on first run
(`database.py`, called from `app.py`): one admin user and eight sample books,
all available, empty ledger. -/
def seedDB : DB :=
  { users := [⟨1, "admin", hash_password "admin123", "admin"⟩],
    books :=
      [⟨1, "The Midnight Kite of Varanasi", "Arunika Senapati", true⟩,
       ⟨2, "Whispers of the Monsoon", "Rohan Mehra", true⟩,
       ⟨3, "The Last Stepwell", "Anaya Iyer", true⟩,
       ⟨4, "Tales of the Banyan Court", "Devansh Rathore", true⟩,
       ⟨5, "The River\x27s Secret of Kaveri", "Priyanka Deshpande", true⟩,
       ⟨6, "Marigold and Ashes", "Kavya Nair", true⟩,
       ⟨7, "The Glass Lantern of Jodhpur", "Samarjeet Bhatia", true⟩,
       ⟨8, "Echoes from the Spice Market", "Mehul Joshi", true⟩],
    borrows := [],
    nextUserId := 2,
    nextBookId := 9,
    nextBorrowId := 1 }

/-- The active ledger rows for one book: rows with that `book_id` and null
`returned_at`. -/
def activeRecords (borrows : List BorrowRecord) (book_id : Nat) : List BorrowRecord :=
  borrows.filter (fun r => r.book_id == book_id && r.returned_at.isNone)

/-- Well-formedness of a state: the id uniqueness and freshness that SQLite's
`AUTOINCREMENT` primary keys provide, referential integrity of the ledger
(maintained by `delete_book`'s cascade), and the availability invariant of the
spec: `available` is exactly "no active ledger row", and each book has at most
one active ledger row. -/
def WF (db : DB) : Prop :=
  (db.books.map Book.id).Nodup ∧
  (∀ b ∈ db.books, b.id < db.nextBookId) ∧
  (db.borrows.map BorrowRecord.id).Nodup ∧
  (∀ r ∈ db.borrows, r.id < db.nextBorrowId) ∧
  (∀ r ∈ db.borrows, ∃ b ∈ db.books, b.id = r.book_id) ∧
  (∀ b ∈ db.books, b.available = (activeRecords db.borrows b.id).isEmpty) ∧
  (∀ b ∈ db.books, (activeRecords db.borrows b.id).length ≤ 1)

instance (db : DB) : Decidable (WF db) := by
  unfold WF; infer_instance

/-- The states reachable from the seeded initial state by any sequence of
operations of the application. -/
inductive Reachable : DB → Prop where
  | seed : Reachable seedDB
  | createUserStep (db : DB) (username password role : String) :
      Reachable db → Reachable (create_user db username password role).2
  | addBookStep (db : DB) (title author : String) :
      Reachable db → Reachable (add_book db title author).2
  | updateBookStep (db : DB) (book_id : Nat) (title author : String) :
      Reachable db → Reachable (update_book db book_id title author)
  | deleteBookStep (db : DB) (book_id : Nat) :
      Reachable db → Reachable (delete_book db book_id)
  | borrowStep (db : DB) (now user_id book_id : Nat) :
      Reachable db → Reachable (borrow_book db now user_id book_id).2
  | returnStep (db : DB) (now user_id book_id : Nat) :
      Reachable db → Reachable (return_book db now user_id book_id).2

/-- A small concrete state used to instantiate theorems: two users, an
available book 1, a book 2 currently borrowed by user 2, one returned ledger
row and one active ledger row. -/
def exDB : DB :=
  { users := [⟨1, "admin", hash_password "admin123", "admin"⟩,
              ⟨2, "mira", hash_password "hunter42", "member"⟩],
    books := [⟨1, "Whispers of the Monsoon", "Rohan Mehra", true⟩,
              ⟨2, "The Last Stepwell", "Anaya Iyer", false⟩],
    borrows := [⟨1, 2, 1, 10, some 20⟩, ⟨2, 2, 2, 30, none⟩],
    nextUserId := 3,
    nextBookId := 3,
    nextBorrowId := 3 }

/-! ## Theorems -/

theorem any_username_eq_true (l : List User) (username : String)
    (h : ∃ u ∈ l, u.username = username) :
    l.any (fun u => u.username == username) = true := by
  rcases h with ⟨u, hu, he⟩
  exact List.any_eq_true.mpr ⟨u, hu, by simpa using he⟩

/-- C7: if the username is already present in the user store, `create_user`
fails (returns `None`) and the whole state, in particular the `users` table,
is unchanged. -/
theorem create_user_duplicate_fails (db : DB) (username password role : String)
    (h : ∃ u ∈ db.users, u.username = username) :
    create_user db username password role = (none, db) := by
  unfold create_user
  rw [if_pos (any_username_eq_true db.users username h)]

/-- C7 witness: creating a second `mira` in `exDB` fails and changes nothing. -/
theorem create_user_duplicate_fails_witness :
    create_user exDB "mira" "pw123456" "member" = (none, exDB) :=
  create_user_duplicate_fails exDB "mira" "pw123456" "member"
    ⟨⟨2, "mira", hash_password "hunter42", "member"⟩, by decide, rfl⟩

/-- C2: borrowing a book that exists but whose `available` flag is false
fails — `borrow_book` returns `False` with the state (ledger and catalog)
exactly unchanged, and the member borrow route reports `Book is not
available`. -/
theorem borrow_unavailable_fails (db : DB) (now user_id book_id : Nat) (bk : Book)
    (hfind : get_book_by_id db book_id = some bk) (hunavail : bk.available = false) :
    borrow_book db now user_id book_id = (false, db) ∧
    member_borrow db now user_id book_id = (BorrowOutcome.bookUnavailable, db) := by
  unfold get_book_by_id at hfind
  constructor
  · unfold borrow_book
    rw [hfind]
    simp [hunavail]
  · unfold member_borrow get_book_by_id
    rw [hfind]
    simp [hunavail]

/-- C2 witness: borrowing book 2 of `exDB` (held by user 2) fails for user 1
and leaves the state unchanged. -/
theorem borrow_unavailable_fails_witness :
    borrow_book exDB 40 1 2 = (false, exDB) ∧
    member_borrow exDB 40 1 2 = (BorrowOutcome.bookUnavailable, exDB) :=
  borrow_unavailable_fails exDB 40 1 2 ⟨2, "The Last Stepwell", "Anaya Iyer", false⟩
    (by decide) rfl

/-- C3: if no ledger row matches the user, the book and null `returned_at`
together — book never borrowed, borrowed by a different user, or already
returned — then `return_book` fails uniformly (returns `False`) and the state
(ledger and catalog) is exactly unchanged. -/
theorem return_no_active_fails (db : DB) (now user_id book_id : Nat)
    (h : ∀ r ∈ db.borrows,
      ¬(r.user_id = user_id ∧ r.book_id = book_id ∧ r.returned_at = none)) :
    return_book db now user_id book_id = (false, db) := by
  have hf : db.borrows.find? (activeFor user_id book_id) = none := by
    rw [List.find?_eq_none]
    intro r hr
    have hn := h r hr
    simp only [activeFor, Bool.and_eq_true, beq_iff_eq, Option.isNone_iff_eq_none]
    tauto
  unfold return_book
  rw [hf]

/-- C3 witness: user 1 returning book 2 of `exDB` (borrowed by user 2) fails
and changes nothing. -/
theorem return_no_active_fails_witness :
    return_book exDB 50 1 2 = (false, exDB) :=
  return_no_active_fails exDB 50 1 2 (by decide)

/-- C5: the member borrow route distinguishes its two failure kinds: an absent
book id yields `Book not found`, an existing unavailable book yields `Book is
not available`, and the two outcomes differ. -/
theorem borrow_failure_kinds (db : DB) (now user_id bid1 bid2 : Nat) (bk : Book)
    (h1 : get_book_by_id db bid1 = none)
    (h2 : get_book_by_id db bid2 = some bk) (h3 : bk.available = false) :
    (member_borrow db now user_id bid1).1 = BorrowOutcome.bookNotFound ∧
    (member_borrow db now user_id bid2).1 = BorrowOutcome.bookUnavailable ∧
    (member_borrow db now user_id bid1).1 ≠ (member_borrow db now user_id bid2).1 := by
  have e1 : (member_borrow db now user_id bid1).1 = BorrowOutcome.bookNotFound := by
    unfold member_borrow
    rw [h1]
  have e2 : (member_borrow db now user_id bid2).1 = BorrowOutcome.bookUnavailable := by
    unfold member_borrow
    rw [h2]
    simp [h3]
  refine ⟨e1, e2, ?_⟩
  rw [e1, e2]
  decide

/-- C5 witness: in `exDB`, borrowing absent book 9 and borrowing unavailable
book 2 produce the two distinct failure outcomes. -/
theorem borrow_failure_kinds_witness :
    (member_borrow exDB 40 1 9).1 = BorrowOutcome.bookNotFound ∧
    (member_borrow exDB 40 1 2).1 = BorrowOutcome.bookUnavailable ∧
    (member_borrow exDB 40 1 9).1 ≠ (member_borrow exDB 40 1 2).1 :=
  borrow_failure_kinds exDB 40 1 9 2 ⟨2, "The Last Stepwell", "Anaya Iyer", false⟩
    (by decide) (by decide) rfl

/-- C9: `update_book` only touches the `title` and `author` columns of the
addressed book: the ledger and the users are unchanged, and every book keeps
its id and its `available` flag; a book with a different id is unchanged
entirely. -/
theorem update_book_frame (db : DB) (book_id : Nat) (title author : String) :
    (update_book db book_id title author).borrows = db.borrows ∧
    (update_book db book_id title author).users = db.users ∧
    List.Forall₂
      (fun b b1 => b.id = b1.id ∧ b.available = b1.available ∧
        (b.id ≠ book_id → b1 = b))
      db.books (update_book db book_id title author).books := by
  refine ⟨rfl, rfl, ?_⟩
  unfold update_book
  simp only
  rw [List.forall₂_map_right_iff]
  rw [List.forall₂_same]
  intro b _
  by_cases hb : b.id = book_id
  · simp [hb]
  · have : (b.id == book_id) = false := by simpa using hb
    simp [this]

/-- C9 witness: retitling book 1 of `exDB` keeps the ledger, the users, every
id and every `available` flag. -/
theorem update_book_frame_witness :
    (update_book exDB 1 "New Title" "New Author").borrows = exDB.borrows ∧
    (update_book exDB 1 "New Title" "New Author").users = exDB.users ∧
    List.Forall₂
      (fun b b1 => b.id = b1.id ∧ b.available = b1.available ∧
        (b.id ≠ 1 → b1 = b))
      exDB.books (update_book exDB 1 "New Title" "New Author").books :=
  update_book_frame exDB 1 "New Title" "New Author"

theorem create_user_role_mem (db : DB) (username password role : String) :
    ∀ u ∈ (create_user db username password role).2.users,
      u ∈ db.users ∨ u.role = role := by
  intro u hu
  unfold create_user at hu
  by_cases hc : db.users.any (fun v => v.username == username) = true
  · rw [if_pos hc] at hu
    exact Or.inl hu
  · rw [if_neg hc] at hu
    simp only [List.mem_append, List.mem_singleton] at hu
    rcases hu with h | h
    · exact Or.inl h
    · right
      rw [h]

/-- C10: every user row present after a call to the registration route was
either already there or has role `member`: registration always passes
`role='member'` to `create_user`, so no admin account can be created through
it. -/
theorem register_creates_only_members (db : DB) (username password confirm : String) :
    ∀ u ∈ (register db username password confirm).2.users,
      u ∈ db.users ∨ u.role = "member" := by
  intro u hu
  unfold register at hu
  split at hu
  · exact Or.inl hu
  split at hu
  · exact Or.inl hu
  split at hu
  · exact Or.inl hu
  rcases hm : create_user db username password "member" with ⟨oid, db1⟩
  rw [hm] at hu
  have := create_user_role_mem db username password "member"
  rw [hm] at this
  cases oid <;> exact this u hu

/-- C10 witness: registering `zoe` on `exDB` adds a row whose role is
`member`. -/
theorem register_creates_only_members_witness :
    (⟨3, "zoe", hash_password "secret7", "member"⟩ : User) ∈ exDB.users ∨
    (⟨3, "zoe", hash_password "secret7", "member"⟩ : User).role = "member" :=
  register_creates_only_members exDB "zoe" "secret7" "secret7"
    ⟨3, "zoe", hash_password "secret7", "member"⟩ (by decide)


theorem insertDesc_nil {α : Type _} (key : α → Nat) (x : α) :
    insertDesc key x [] = [x] := rfl

theorem insertDesc_cons {α : Type _} (key : α → Nat) (x y : α) (ys : List α) :
    insertDesc key x (y :: ys) =
      if key y ≤ key x then x :: y :: ys else y :: insertDesc key x ys := rfl

theorem sortDesc_cons {α : Type _} (key : α → Nat) (x : α) (xs : List α) :
    sortDesc key (x :: xs) = insertDesc key x (sortDesc key xs) := rfl

theorem mem_insertDesc {α : Type _} (key : α → Nat) (x z : α) (l : List α) :
    z ∈ insertDesc key x l ↔ z = x ∨ z ∈ l := by
  induction l with
  | nil => simp [insertDesc]
  | cons y ys ih =>
    rw [insertDesc_cons]
    by_cases h : key y ≤ key x
    · simp [h]
    · simp [h, ih]
      tauto

theorem insertDesc_perm {α : Type _} (key : α → Nat) (x : α) (l : List α) :
    (insertDesc key x l).Perm (x :: l) := by
  induction l with
  | nil => exact List.Perm.refl _
  | cons y ys ih =>
    rw [insertDesc_cons]
    by_cases h : key y ≤ key x
    · rw [if_pos h]
    · rw [if_neg h]
      exact (ih.cons y).trans (List.Perm.swap x y ys)

theorem sortDesc_perm {α : Type _} (key : α → Nat) (l : List α) :
    (sortDesc key l).Perm l := by
  induction l with
  | nil => exact List.Perm.refl _
  | cons x xs ih =>
    exact (insertDesc_perm key x (sortDesc key xs)).trans (ih.cons x)

theorem pairwise_insertDesc {α : Type _} (key : α → Nat) (x : α) (l : List α)
    (h : l.Pairwise (fun a b => key b ≤ key a)) :
    (insertDesc key x l).Pairwise (fun a b => key b ≤ key a) := by
  induction l with
  | nil => simp [insertDesc]
  | cons y ys ih =>
    rw [List.pairwise_cons] at h
    rw [insertDesc_cons]
    by_cases hxy : key y ≤ key x
    · rw [if_pos hxy, List.pairwise_cons]
      refine ⟨?_, List.pairwise_cons.mpr h⟩
      intro z hz
      rcases List.mem_cons.mp hz with rfl | hz
      · exact hxy
      · exact le_trans (h.1 z hz) hxy
    · rw [if_neg hxy, List.pairwise_cons]
      refine ⟨?_, ih h.2⟩
      intro z hz
      rcases (mem_insertDesc key x z ys).mp hz with rfl | hz
      · exact le_of_lt (Nat.lt_of_not_le hxy)
      · exact h.1 z hz

theorem sortDesc_sorted {α : Type _} (key : α → Nat) (l : List α) :
    (sortDesc key l).Pairwise (fun a b => key b ≤ key a) := by
  induction l with
  | nil => simp [sortDesc]
  | cons x xs ih => exact pairwise_insertDesc key x (sortDesc key xs) ih

theorem insertDesc_eq_cons {α : Type _} (key : α → Nat) (x : α) (l : List α)
    (h : ∀ z ∈ l, key z ≤ key x) : insertDesc key x l = x :: l := by
  cases l with
  | nil => rfl
  | cons y ys =>
    rw [insertDesc_cons, if_pos (h y (List.mem_cons_self y ys))]

theorem filter_insertDesc {α : Type _} (key : α → Nat) (p : α → Bool) (x : α) (l : List α)
    (h : l.Pairwise (fun a b => key b ≤ key a)) :
    (insertDesc key x l).filter p =
      if p x then insertDesc key x (l.filter p) else l.filter p := by
  induction l with
  | nil =>
    cases hpx : p x <;> simp [insertDesc, hpx]
  | cons y ys ih =>
    rw [List.pairwise_cons] at h
    rw [insertDesc_cons]
    by_cases hxy : key y ≤ key x
    · rw [if_pos hxy]
      cases hpx : p x
      · rw [List.filter_cons_of_neg (by simp [hpx]), if_neg (by simp)]
      · rw [List.filter_cons_of_pos hpx, if_pos rfl]
        rw [insertDesc_eq_cons]
        intro z hz
        rcases List.mem_cons.mp (List.mem_of_mem_filter hz) with rfl | hz3
        · exact hxy
        · exact le_trans (h.1 z hz3) hxy
    · rw [if_neg hxy]
      cases hpy : p y
      · rw [List.filter_cons_of_neg (by simp [hpy]), List.filter_cons_of_neg (by simp [hpy])]
        exact ih h.2
      · rw [List.filter_cons_of_pos hpy, List.filter_cons_of_pos hpy]
        rw [ih h.2]
        cases hpx : p x
        · rw [if_neg (by simp), if_neg (by simp)]
        · rw [if_pos rfl, if_pos rfl]
          rw [insertDesc_cons, if_neg hxy]

theorem sortDesc_filter {α : Type _} (key : α → Nat) (p : α → Bool) (l : List α) :
    sortDesc key (l.filter p) = (sortDesc key l).filter p := by
  induction l with
  | nil => rfl
  | cons x xs ih =>
    rw [List.filter_cons, sortDesc_cons,
      filter_insertDesc key p x (sortDesc key xs) (sortDesc_sorted key xs)]
    cases hpx : p x
    · rw [if_neg (by simp), if_neg (by simp)]
      exact ih
    · rw [if_pos rfl, if_pos rfl, sortDesc_cons, ih]


theorem joinRow_book_id (books : List Book) (r : BorrowRecord) :
    ∀ e ∈ joinRow books r, e.book_id = r.book_id := by
  intro e he
  unfold joinRow at he
  obtain ⟨b, hb, rfl⟩ := List.mem_map.mp he
  simpa using (List.mem_filter.mp hb).2

theorem filter_joinRow_of_ne (books : List Book) (bid : Nat) (r : BorrowRecord)
    (h : (r.book_id == bid) = false) :
    (joinRow books r).filter (fun e => !(e.book_id == bid)) = joinRow books r := by
  rw [List.filter_eq_self]
  intro e he
  rw [joinRow_book_id books r e he]
  simp only [h, Bool.not_false]

theorem filter_joinRow_of_eq (books : List Book) (bid : Nat) (r : BorrowRecord)
    (h : (r.book_id == bid) = true) :
    (joinRow books r).filter (fun e => !(e.book_id == bid)) = [] := by
  rw [List.filter_eq_nil_iff]
  intro e he
  rw [joinRow_book_id books r e he]
  simp only [h, Bool.not_true, Bool.false_eq_true, not_false_eq_true]

theorem joinRow_delete (books : List Book) (bid : Nat) (r : BorrowRecord)
    (h : (r.book_id == bid) = false) :
    joinRow (books.filter (fun b => !(b.id == bid))) r = joinRow books r := by
  unfold joinRow
  rw [List.filter_filter]
  congr 1
  apply List.filter_congr
  intro b _
  cases hb : (b.id == bid)
  · simp
  · have hbid : b.id = bid := by simpa using hb
    have : (b.id == r.book_id) = false := by
      rw [hbid]
      cases hrb : (bid == r.book_id)
      · rfl
      · have : bid = r.book_id := by simpa using hrb
        rw [← this] at h
        simp at h
    simp [this]

theorem flatMap_joinRow_delete (books : List Book) (bid : Nat) (l : List BorrowRecord) :
    (l.filter (fun r => !(r.book_id == bid))).flatMap
        (joinRow (books.filter (fun b => !(b.id == bid))))
      = (l.flatMap (joinRow books)).filter (fun e => !(e.book_id == bid)) := by
  induction l with
  | nil => rfl
  | cons r rs ih =>
    rw [List.filter_cons, List.flatMap_cons, List.filter_append]
    cases hq : (r.book_id == bid)
    · rw [if_pos (by decide : (!false) = true), List.flatMap_cons,
        joinRow_delete books bid r hq, filter_joinRow_of_ne books bid r hq, ih]
    · rw [if_neg (by decide : ¬((!true) = true)), filter_joinRow_of_eq books bid r hq,
        List.nil_append, ih]

/-- C6: `delete_book` removes every ledger row of the book, active or
returned; the book no longer appears in `get_all_books`; and every user's
borrow history is exactly the old history with that book's rows dropped. -/
theorem delete_book_cascades (db : DB) (book_id user_id : Nat) :
    (∀ r ∈ (delete_book db book_id).borrows, r.book_id ≠ book_id) ∧
    (∀ b ∈ get_all_books (delete_book db book_id), b.id ≠ book_id) ∧
    get_borrowed_books_by_user (delete_book db book_id) user_id
      = (get_borrowed_books_by_user db user_id).filter
          (fun e => !(e.book_id == book_id)) := by
  refine ⟨?_, ?_, ?_⟩
  · intro r hr
    simpa using (List.mem_filter.mp hr).2
  · intro b hb
    simpa using (List.mem_filter.mp hb).2
  · unfold get_borrowed_books_by_user
    simp only [delete_book]
    have hcomm : List.filter (fun r => r.user_id == user_id)
          (List.filter (fun r => !(r.book_id == book_id)) db.borrows)
        = List.filter (fun r => !(r.book_id == book_id))
            (List.filter (fun r => r.user_id == user_id) db.borrows) := by
      rw [List.filter_filter, List.filter_filter]
      apply List.filter_congr
      intro r _
      exact Bool.and_comm _ _
    rw [hcomm, flatMap_joinRow_delete db.books book_id
          (List.filter (fun r => r.user_id == user_id) db.borrows),
        sortDesc_filter]

/-- C6 witness: deleting book 1 from `exDB` purges its ledger rows, hides it
from `get_all_books`, and shrinks user 2's history accordingly. -/
theorem delete_book_cascades_witness :
    (⟨2, 2, 2, 30, none⟩ : BorrowRecord).book_id ≠ 1 ∧
    (⟨2, "The Last Stepwell", "Anaya Iyer", false⟩ : Book).id ≠ 1 ∧
    get_borrowed_books_by_user (delete_book exDB 1) 2
      = (get_borrowed_books_by_user exDB 2).filter (fun e => !(e.book_id == 1)) :=
  ⟨(delete_book_cascades exDB 1 2).1 ⟨2, 2, 2, 30, none⟩ (by decide),
   (delete_book_cascades exDB 1 2).2.1 ⟨2, "The Last Stepwell", "Anaya Iyer", false⟩
     (by decide),
   (delete_book_cascades exDB 1 2).2.2⟩

theorem filter_id_eq_singleton (books : List Book) (n : Nat) (b : Book)
    (hnd : (books.map Book.id).Nodup) (hb : b ∈ books) (hid : b.id = n) :
    books.filter (fun x => x.id == n) = [b] := by
  induction books with
  | nil => cases hb
  | cons c cs ih =>
    rw [List.map_cons, List.nodup_cons] at hnd
    rcases List.mem_cons.mp hb with rfl | hbc
    · rw [List.filter_cons_of_pos (by simpa using hid)]
      have : cs.filter (fun x => x.id == n) = [] := by
        rw [List.filter_eq_nil_iff]
        intro z hz hzn
        apply hnd.1
        have : z.id = n := by simpa using hzn
        rw [hid, ← this]
        exact List.mem_map_of_mem Book.id hz
      rw [this]
    · have hcn : (c.id == n) = false := by
        cases hc : (c.id == n)
        · rfl
        · exfalso
          apply hnd.1
          have : c.id = n := by simpa using hc
          rw [this, ← hid]
          exact List.mem_map_of_mem Book.id hbc
      rw [List.filter_cons_of_neg (by simp [hcn])]
      exact ih hnd.2 hbc

theorem joinRow_map_eq (books : List Book) (hnd : (books.map Book.id).Nodup)
    (r : BorrowRecord) (href : ∃ b ∈ books, b.id = r.book_id) :
    (joinRow books r).map (fun e => (e.book_id, e.borrowed_at, e.returned_at))
      = [(r.book_id, r.borrowed_at, r.returned_at)] := by
  obtain ⟨b, hb, hid⟩ := href
  unfold joinRow
  rw [filter_id_eq_singleton books r.book_id b hnd hb hid]
  simp [hid]

theorem joinRowActive_map_eq (books : List Book) (hnd : (books.map Book.id).Nodup)
    (r : BorrowRecord) (href : ∃ b ∈ books, b.id = r.book_id) :
    (joinRowActive books r).map (fun e => (e.book_id, e.borrowed_at))
      = [(r.book_id, r.borrowed_at)] := by
  obtain ⟨b, hb, hid⟩ := href
  unfold joinRowActive
  rw [filter_id_eq_singleton books r.book_id b hnd hb hid]
  simp [hid]

theorem flatMap_joinRow_proj (books : List Book) (hnd : (books.map Book.id).Nodup)
    (l : List BorrowRecord) (href : ∀ r ∈ l, ∃ b ∈ books, b.id = r.book_id) :
    (l.flatMap (joinRow books)).map (fun e => (e.book_id, e.borrowed_at, e.returned_at))
      = l.map (fun r => (r.book_id, r.borrowed_at, r.returned_at)) := by
  induction l with
  | nil => rfl
  | cons r rs ih =>
    rw [List.flatMap_cons, List.map_append,
      joinRow_map_eq books hnd r (href r (List.mem_cons_self r rs)),
      List.singleton_append, List.map_cons]
    congr 1
    exact ih (fun z hz => href z (List.mem_cons_of_mem r hz))

theorem flatMap_joinRowActive_proj (books : List Book) (hnd : (books.map Book.id).Nodup)
    (l : List BorrowRecord) (href : ∀ r ∈ l, ∃ b ∈ books, b.id = r.book_id) :
    (l.flatMap (joinRowActive books)).map (fun e => (e.book_id, e.borrowed_at))
      = l.map (fun r => (r.book_id, r.borrowed_at)) := by
  induction l with
  | nil => rfl
  | cons r rs ih =>
    rw [List.flatMap_cons, List.map_append,
      joinRowActive_map_eq books hnd r (href r (List.mem_cons_self r rs)),
      List.singleton_append, List.map_cons]
    congr 1
    exact ih (fun z hz => href z (List.mem_cons_of_mem r hz))

/-- C8: for every user, the history query returns exactly that user's ledger
rows — returned and active alike — sorted most-recent-first by `borrowed_at`,
and the active query returns exactly that user's rows with null `returned_at`,
sorted most-recent-first by `borrowed_at`. -/
theorem user_queries_ordered_complete (db : DB) (user_id : Nat) (hwf : WF db) :
    (get_borrowed_books_by_user db user_id).Pairwise
      (fun a b => b.borrowed_at ≤ a.borrowed_at) ∧
    ((get_borrowed_books_by_user db user_id).map
        (fun e => (e.book_id, e.borrowed_at, e.returned_at))).Perm
      ((db.borrows.filter (fun r => r.user_id == user_id)).map
        (fun r => (r.book_id, r.borrowed_at, r.returned_at))) ∧
    (get_active_borrowed_books_by_user db user_id).Pairwise
      (fun a b => b.borrowed_at ≤ a.borrowed_at) ∧
    ((get_active_borrowed_books_by_user db user_id).map
        (fun e => (e.book_id, e.borrowed_at))).Perm
      ((db.borrows.filter (fun r => r.user_id == user_id && r.returned_at.isNone)).map
        (fun r => (r.book_id, r.borrowed_at))) := by
  obtain ⟨hnb, _, _, _, href, _, _⟩ := hwf
  refine ⟨sortDesc_sorted _ _, ?_, sortDesc_sorted _ _, ?_⟩
  · unfold get_borrowed_books_by_user
    have hperm := ((sortDesc_perm (fun e : HistoryRow => e.borrowed_at)
        ((db.borrows.filter (fun r => r.user_id == user_id)).flatMap
          (joinRow db.books))).map (fun e => (e.book_id, e.borrowed_at, e.returned_at)))
    refine hperm.trans ?_
    rw [flatMap_joinRow_proj db.books hnb _
      (fun z hz => href z (List.mem_of_mem_filter hz))]
  · unfold get_active_borrowed_books_by_user
    have hperm := ((sortDesc_perm (fun e : ActiveRow => e.borrowed_at)
        ((db.borrows.filter
            (fun r => r.user_id == user_id && r.returned_at.isNone)).flatMap
          (joinRowActive db.books))).map (fun e => (e.book_id, e.borrowed_at)))
    refine hperm.trans ?_
    rw [flatMap_joinRowActive_proj db.books hnb _
      (fun z hz => href z (List.mem_of_mem_filter hz))]

/-- C8 witness: on `exDB`, user 2's history is its two ledger rows, newest
first, and the active query returns exactly the single active row. -/
theorem user_queries_ordered_complete_witness :
    (get_borrowed_books_by_user exDB 2).Pairwise
      (fun a b => b.borrowed_at ≤ a.borrowed_at) ∧
    ((get_borrowed_books_by_user exDB 2).map
        (fun e => (e.book_id, e.borrowed_at, e.returned_at))).Perm
      ((exDB.borrows.filter (fun r => r.user_id == 2)).map
        (fun r => (r.book_id, r.borrowed_at, r.returned_at))) ∧
    (get_active_borrowed_books_by_user exDB 2).Pairwise
      (fun a b => b.borrowed_at ≤ a.borrowed_at) ∧
    ((get_active_borrowed_books_by_user exDB 2).map
        (fun e => (e.book_id, e.borrowed_at))).Perm
      ((exDB.borrows.filter (fun r => r.user_id == 2 && r.returned_at.isNone)).map
        (fun r => (r.book_id, r.borrowed_at))) :=
  user_queries_ordered_complete exDB 2 (by decide)

end Library
namespace Library

theorem activeRecords_append (l1 l2 : List BorrowRecord) (bid : Nat) :
    activeRecords (l1 ++ l2) bid = activeRecords l1 bid ++ activeRecords l2 bid := by
  unfold activeRecords
  exact List.filter_append l1 l2

theorem map_book_id_eq {f : Book → Book} (hf : ∀ b, (f b).id = b.id)
    (books : List Book) :
    (books.map f).map Book.id = books.map Book.id := by
  rw [List.map_map]
  exact List.map_congr_left (fun b _ => hf b)

theorem map_record_id_eq {f : BorrowRecord → BorrowRecord}
    (hf : ∀ r, (f r).id = r.id) (l : List BorrowRecord) :
    (l.map f).map BorrowRecord.id = l.map BorrowRecord.id := by
  rw [List.map_map]
  exact List.map_congr_left (fun r _ => hf r)

theorem book_eq_of_id_eq (books : List Book) (hnd : (books.map Book.id).Nodup)
    (b1 b2 : Book) (h1 : b1 ∈ books) (h2 : b2 ∈ books) (h : b1.id = b2.id) : b1 = b2 :=
  List.inj_on_of_nodup_map hnd h1 h2 h

theorem record_eq_of_id_eq (l : List BorrowRecord)
    (hnd : (l.map BorrowRecord.id).Nodup) (r1 r2 : BorrowRecord)
    (h1 : r1 ∈ l) (h2 : r2 ∈ l) (h : r1.id = r2.id) : r1 = r2 :=
  List.inj_on_of_nodup_map hnd h1 h2 h

theorem wf_create_user (db : DB) (username password role : String) (h : WF db) :
    WF (create_user db username password role).2 := by
  unfold create_user
  by_cases hc : db.users.any (fun u => u.username == username) = true
  · rw [if_pos hc]
    exact h
  · rw [if_neg hc]
    exact h

theorem wf_add_book (db : DB) (title author : String) (h : WF db) :
    WF (add_book db title author).2 := by
  obtain ⟨hnb, hblt, hnr, hrlt, href, hav, hone⟩ := h
  have hfresh : ∀ r ∈ db.borrows, r.book_id ≠ db.nextBookId := by
    intro r hr heq
    obtain ⟨b, hb, hbid⟩ := href r hr
    have := hblt b hb
    omega
  have hact : activeRecords db.borrows db.nextBookId = [] := by
    unfold activeRecords
    rw [List.filter_eq_nil_iff]
    intro r hr hcon
    rw [Bool.and_eq_true] at hcon
    exact hfresh r hr (by simpa using hcon.1)
  unfold WF add_book
  simp only
  refine ⟨?_, ?_, hnr, hrlt, ?_, ?_, ?_⟩
  · rw [List.map_append, List.nodup_append]
    refine ⟨hnb, List.nodup_singleton _, ?_⟩
    intro n hn hn2
    rw [List.map_singleton, List.mem_singleton] at hn2
    obtain ⟨b, hb, rfl⟩ := List.mem_map.mp hn
    have hn3 : b.id = db.nextBookId := by simpa using hn2
    have := hblt b hb
    omega
  · intro b hb
    rcases List.mem_append.mp hb with hb | hb
    · have := hblt b hb
      omega
    · rw [List.mem_singleton] at hb
      subst hb
      exact Nat.lt_succ_self db.nextBookId
  · intro r hr
    obtain ⟨b, hb, hbid⟩ := href r hr
    exact ⟨b, List.mem_append_left _ hb, hbid⟩
  · intro b hb
    rcases List.mem_append.mp hb with hb | hb
    · exact hav b hb
    · rw [List.mem_singleton] at hb
      subst hb
      simp [hact]
  · intro b hb
    rcases List.mem_append.mp hb with hb | hb
    · exact hone b hb
    · rw [List.mem_singleton] at hb
      subst hb
      simp [hact]

theorem wf_update_book (db : DB) (book_id : Nat) (title author : String) (h : WF db) :
    WF (update_book db book_id title author) := by
  obtain ⟨hnb, hblt, hnr, hrlt, href, hav, hone⟩ := h
  unfold WF update_book
  simp only
  have hid : ∀ b : Book,
      (if b.id == book_id then { b with title := title, author := author } else b).id
        = b.id := by
    intro b
    by_cases hb : (b.id == book_id) = true <;> simp [hb]
  have havail : ∀ b : Book,
      (if b.id == book_id then { b with title := title, author := author } else b).available
        = b.available := by
    intro b
    by_cases hb : (b.id == book_id) = true <;> simp [hb]
  refine ⟨?_, ?_, hnr, hrlt, ?_, ?_, ?_⟩
  · rw [map_book_id_eq hid]
    exact hnb
  · intro b hb
    obtain ⟨c, hc, rfl⟩ := List.mem_map.mp hb
    rw [hid c]
    exact hblt c hc
  · intro r hr
    obtain ⟨b, hb, hbid⟩ := href r hr
    refine ⟨_, List.mem_map_of_mem _ hb, ?_⟩
    rw [hid b]
    exact hbid
  · intro b hb
    obtain ⟨c, hc, rfl⟩ := List.mem_map.mp hb
    rw [hid c, havail c]
    exact hav c hc
  · intro b hb
    obtain ⟨c, hc, rfl⟩ := List.mem_map.mp hb
    rw [hid c]
    exact hone c hc

theorem activeRecords_filter_ne (l : List BorrowRecord) (bid n : Nat) (h : n ≠ bid) :
    activeRecords (l.filter (fun r => !(r.book_id == bid))) n = activeRecords l n := by
  unfold activeRecords
  rw [List.filter_filter]
  apply List.filter_congr
  intro r _
  cases hbk : (r.book_id == n)
  · simp
  · have hrn : r.book_id = n := by simpa using hbk
    have h2 : (r.book_id == bid) = false := by
      cases hq : (r.book_id == bid)
      · rfl
      · exact absurd (by rw [← hrn]; simpa using hq) h
    simp [h2]

theorem wf_delete_book (db : DB) (book_id : Nat) (h : WF db) :
    WF (delete_book db book_id) := by
  obtain ⟨hnb, hblt, hnr, hrlt, href, hav, hone⟩ := h
  unfold WF delete_book
  dsimp only
  refine ⟨?_, ?_, ?_, ?_, ?_, ?_, ?_⟩
  · exact hnb.sublist ((List.filter_sublist db.books).map Book.id)
  · intro b hb
    exact hblt b (List.mem_of_mem_filter hb)
  · exact hnr.sublist ((List.filter_sublist db.borrows).map BorrowRecord.id)
  · intro r hr
    exact hrlt r (List.mem_of_mem_filter hr)
  · intro r hr
    have hrne : r.book_id ≠ book_id := by simpa using (List.mem_filter.mp hr).2
    obtain ⟨b, hb, hbid⟩ := href r (List.mem_of_mem_filter hr)
    refine ⟨b, List.mem_filter.mpr ⟨hb, ?_⟩, hbid⟩
    simp [hbid, hrne]
  · intro b hb
    have hbne : b.id ≠ book_id := by simpa using (List.mem_filter.mp hb).2
    rw [activeRecords_filter_ne db.borrows book_id b.id hbne]
    exact hav b (List.mem_of_mem_filter hb)
  · intro b hb
    have hbne : b.id ≠ book_id := by simpa using (List.mem_filter.mp hb).2
    rw [activeRecords_filter_ne db.borrows book_id b.id hbne]
    exact hone b (List.mem_of_mem_filter hb)

theorem borrow_book_none (db : DB) (now user_id book_id : Nat)
    (hf : db.books.find? (fun b => b.id == book_id) = none) :
    borrow_book db now user_id book_id = (false, db) := by
  unfold borrow_book
  rw [hf]

theorem borrow_book_unavailable_eq (db : DB) (now user_id book_id : Nat) (bk : Book)
    (hf : db.books.find? (fun b => b.id == book_id) = some bk)
    (hbk : bk.available = false) :
    borrow_book db now user_id book_id = (false, db) := by
  unfold borrow_book
  rw [hf]
  simp [hbk]

theorem borrow_book_succeeds (db : DB) (now user_id book_id : Nat) (bk : Book)
    (hf : db.books.find? (fun b => b.id == book_id) = some bk)
    (hbk : bk.available = true) :
    borrow_book db now user_id book_id =
      (true,
       { db with
          borrows := db.borrows ++ [⟨db.nextBorrowId, user_id, book_id, now, none⟩],
          books := db.books.map (fun b =>
            if b.id == book_id then { b with available := false } else b),
          nextBorrowId := db.nextBorrowId + 1 }) := by
  unfold borrow_book
  rw [hf]
  simp [hbk]

theorem return_book_none (db : DB) (now user_id book_id : Nat)
    (hf : db.borrows.find? (activeFor user_id book_id) = none) :
    return_book db now user_id book_id = (false, db) := by
  unfold return_book
  rw [hf]

theorem return_book_succeeds (db : DB) (now user_id book_id : Nat) (rec : BorrowRecord)
    (hf : db.borrows.find? (activeFor user_id book_id) = some rec) :
    return_book db now user_id book_id =
      (true,
       { db with
          borrows := db.borrows.map (fun r =>
            if r.id == rec.id then { r with returned_at := some now } else r),
          books := db.books.map (fun b =>
            if b.id == book_id then { b with available := true } else b) }) := by
  unfold return_book
  rw [hf]

theorem singleton_activeRecords_eq (nid uid bid now n : Nat) (h : n = bid) :
    activeRecords [⟨nid, uid, bid, now, none⟩] n = [⟨nid, uid, bid, now, none⟩] := by
  unfold activeRecords
  rw [List.filter_cons_of_pos (by simp [h])]
  rfl

theorem singleton_activeRecords_ne (nid uid bid now n : Nat) (h : n ≠ bid) :
    activeRecords [⟨nid, uid, bid, now, none⟩] n = [] := by
  unfold activeRecords
  rw [List.filter_cons_of_neg (by simp; exact fun he => h he.symm)]
  rfl

theorem wf_borrow_book (db : DB) (now user_id book_id : Nat) (h : WF db) :
    WF (borrow_book db now user_id book_id).2 := by
  cases hf : db.books.find? (fun b => b.id == book_id) with
  | none =>
    rw [borrow_book_none db now user_id book_id hf]
    exact h
  | some bk =>
    cases hbk : bk.available with
    | false =>
      rw [borrow_book_unavailable_eq db now user_id book_id bk hf hbk]
      exact h
    | true =>
      rw [borrow_book_succeeds db now user_id book_id bk hf hbk]
      obtain ⟨hnb, hblt, hnr, hrlt, href, hav, hone⟩ := h
      have hbkmem : bk ∈ db.books := List.mem_of_find?_eq_some hf
      have hbkid : bk.id = book_id := by simpa using List.find?_some hf
      have hact : activeRecords db.borrows bk.id = [] := by
        have h1 := hav bk hbkmem
        rw [hbk] at h1
        exact List.isEmpty_iff.mp (by rw [← h1])
      have hid : ∀ b : Book,
          ((if b.id == book_id then { b with available := false } else b) : Book).id
            = b.id := by
        intro b
        by_cases hc : (b.id == book_id) = true <;> simp [hc]
      unfold WF
      dsimp only
      refine ⟨?_, ?_, ?_, ?_, ?_, ?_, ?_⟩
      · rw [map_book_id_eq hid]
        exact hnb
      · intro b hb
        obtain ⟨c, hc, rfl⟩ := List.mem_map.mp hb
        rw [hid c]
        exact hblt c hc
      · rw [List.map_append, List.map_singleton, List.nodup_append]
        refine ⟨hnr, List.nodup_singleton _, ?_⟩
        intro n hn hn2
        rw [List.mem_singleton] at hn2
        obtain ⟨r, hr, rfl⟩ := List.mem_map.mp hn
        have hn3 : r.id = db.nextBorrowId := by simpa using hn2
        have := hrlt r hr
        omega
      · intro r hr
        rcases List.mem_append.mp hr with hr | hr
        · have := hrlt r hr
          omega
        · rw [List.mem_singleton] at hr
          subst hr
          exact Nat.lt_succ_self db.nextBorrowId
      · intro r hr
        rcases List.mem_append.mp hr with hr | hr
        · obtain ⟨b, hb, hbid⟩ := href r hr
          refine ⟨_, List.mem_map_of_mem _ hb, ?_⟩
          rw [hid b]
          exact hbid
        · rw [List.mem_singleton] at hr
          subst hr
          refine ⟨_, List.mem_map_of_mem _ hbkmem, ?_⟩
          rw [hid bk]
          exact hbkid
      · intro b hb
        obtain ⟨c, hc, rfl⟩ := List.mem_map.mp hb
        rw [hid c, activeRecords_append]
        by_cases hcb : (c.id == book_id) = true
        · have hcbid : c.id = book_id := by simpa using hcb
          have hcbk : c = bk :=
            book_eq_of_id_eq db.books hnb c bk hc hbkmem (by rw [hcbid, hbkid])
          rw [singleton_activeRecords_eq db.nextBorrowId user_id book_id now c.id hcbid]
          rw [hcbk, hact]
          simp [hbkid]
        · have hcbid : c.id ≠ book_id := by simpa using hcb
          rw [singleton_activeRecords_ne db.nextBorrowId user_id book_id now c.id hcbid]
          rw [List.append_nil]
          have hcb2 : (c.id == book_id) = false := by simpa using hcb
          simp only [hcb2, Bool.false_eq_true, if_false]
          exact hav c hc
      · intro b hb
        obtain ⟨c, hc, rfl⟩ := List.mem_map.mp hb
        rw [hid c, activeRecords_append]
        by_cases hcb : (c.id == book_id) = true
        · have hcbid : c.id = book_id := by simpa using hcb
          have hcbk : c = bk :=
            book_eq_of_id_eq db.books hnb c bk hc hbkmem (by rw [hcbid, hbkid])
          rw [singleton_activeRecords_eq db.nextBorrowId user_id book_id now c.id hcbid]
          rw [hcbk, hact]
          simp
        · have hcbid : c.id ≠ book_id := by simpa using hcb
          rw [singleton_activeRecords_ne db.nextBorrowId user_id book_id now c.id hcbid]
          rw [List.append_nil]
          exact hone c hc

theorem eq_singleton_of_mem_of_length_le {α : Type _} (l : List α) (x : α)
    (hx : x ∈ l) (hl : l.length ≤ 1) : l = [x] := by
  cases l with
  | nil => cases hx
  | cons a as =>
    cases as with
    | nil =>
      rcases List.mem_singleton.mp hx with rfl
      rfl
    | cons b bs => simp at hl

theorem activeRecords_map_eq (g : BorrowRecord → BorrowRecord) (l : List BorrowRecord)
    (n : Nat) (hbook : ∀ r, (g r).book_id = r.book_id)
    (hfix : ∀ r ∈ l, r.book_id = n → g r = r) :
    activeRecords (l.map g) n = activeRecords l n := by
  induction l with
  | nil => rfl
  | cons r rs ih =>
    rw [List.map_cons]
    unfold activeRecords
    rw [List.filter_cons, List.filter_cons]
    have ih2 : List.filter (fun x => x.book_id == n && x.returned_at.isNone) (rs.map g)
        = List.filter (fun x => x.book_id == n && x.returned_at.isNone) rs :=
      ih (fun z hz => hfix z (List.mem_cons_of_mem r hz))
    by_cases hr : (r.book_id == n) = true
    · have hgr : g r = r := hfix r (List.mem_cons_self r rs) (by simpa using hr)
      rw [hgr, ih2]
    · have hr2 : (r.book_id == n) = false := by simpa using hr
      rw [if_neg (by rw [Bool.and_eq_true]; intro hc; rw [hbook r, hr2] at hc; cases hc.1)]
      rw [if_neg (by rw [Bool.and_eq_true]; intro hc; rw [hr2] at hc; cases hc.1)]
      exact ih2

theorem wf_return_book (db : DB) (now user_id book_id : Nat) (h : WF db) :
    WF (return_book db now user_id book_id).2 := by
  cases hf : db.borrows.find? (activeFor user_id book_id) with
  | none =>
    rw [return_book_none db now user_id book_id hf]
    exact h
  | some rec =>
    rw [return_book_succeeds db now user_id book_id rec hf]
    obtain ⟨hnb, hblt, hnr, hrlt, href, hav, hone⟩ := h
    have hrecmem : rec ∈ db.borrows := List.mem_of_find?_eq_some hf
    have hrecact := List.find?_some hf
    unfold activeFor at hrecact
    rw [Bool.and_eq_true, Bool.and_eq_true] at hrecact
    have hruid : rec.user_id = user_id := by simpa using hrecact.1.1
    have hrbid : rec.book_id = book_id := by simpa using hrecact.1.2
    have hrnone : rec.returned_at = none := by
      simpa [Option.isNone_iff_eq_none] using hrecact.2
    obtain ⟨b0, hb0, hb0id⟩ := href rec hrecmem
    have hactrec : activeRecords db.borrows book_id = [rec] := by
      apply eq_singleton_of_mem_of_length_le
      · exact List.mem_filter.mpr ⟨hrecmem, by simp [hrbid, hrnone]⟩
      · have := hone b0 hb0
        rw [hb0id, hrbid] at this
        exact this
    have hidg : ∀ r : BorrowRecord,
        ((if r.id == rec.id then { r with returned_at := some now } else r) :
          BorrowRecord).id = r.id := by
      intro r
      by_cases hc : (r.id == rec.id) = true <;> simp [hc]
    have hbookg : ∀ r : BorrowRecord,
        ((if r.id == rec.id then { r with returned_at := some now } else r) :
          BorrowRecord).book_id = r.book_id := by
      intro r
      by_cases hc : (r.id == rec.id) = true <;> simp [hc]
    have hidf : ∀ b : Book,
        ((if b.id == book_id then { b with available := true } else b) : Book).id
          = b.id := by
      intro b
      by_cases hc : (b.id == book_id) = true <;> simp [hc]
    have hactng : activeRecords
        (db.borrows.map (fun r =>
          if r.id == rec.id then { r with returned_at := some now } else r)) book_id
        = [] := by
      unfold activeRecords
      rw [List.filter_eq_nil_iff]
      intro e he hcond
      obtain ⟨r, hr, rfl⟩ := List.mem_map.mp he
      rw [Bool.and_eq_true] at hcond
      by_cases hri : (r.id == rec.id) = true
      · have hre : r = rec :=
          record_eq_of_id_eq db.borrows hnr r rec hr hrecmem (by simpa using hri)
        rw [if_pos hri] at hcond
        simp at hcond
      · have hri2 : (r.id == rec.id) = false := by simpa using hri
        rw [if_neg (by simp [hri2])] at hcond
        have hrmem : r ∈ activeRecords db.borrows book_id := by
          unfold activeRecords
          exact List.mem_filter.mpr ⟨hr, by rw [Bool.and_eq_true]; exact hcond⟩
        rw [hactrec, List.mem_singleton] at hrmem
        rw [hrmem] at hri2
        simp at hri2
    have hfix : ∀ (n : Nat), n ≠ book_id → ∀ r ∈ db.borrows, r.book_id = n →
        (if r.id == rec.id then { r with returned_at := some now } else r) = r := by
      intro n hn r hr hrn
      by_cases hri : (r.id == rec.id) = true
      · have hre : r = rec :=
          record_eq_of_id_eq db.borrows hnr r rec hr hrecmem (by simpa using hri)
        rw [hre] at hrn
        rw [hrbid] at hrn
        exact absurd hrn.symm hn
      · rw [if_neg (by simpa using hri)]
    unfold WF
    dsimp only
    refine ⟨?_, ?_, ?_, ?_, ?_, ?_, ?_⟩
    · rw [map_book_id_eq hidf]
      exact hnb
    · intro b hb
      obtain ⟨c, hc, rfl⟩ := List.mem_map.mp hb
      rw [hidf c]
      exact hblt c hc
    · rw [map_record_id_eq hidg]
      exact hnr
    · intro r hr
      obtain ⟨z, hz, rfl⟩ := List.mem_map.mp hr
      rw [hidg z]
      exact hrlt z hz
    · intro r hr
      obtain ⟨z, hz, rfl⟩ := List.mem_map.mp hr
      rw [hbookg z]
      obtain ⟨b, hb, hbid⟩ := href z hz
      refine ⟨_, List.mem_map_of_mem _ hb, ?_⟩
      rw [hidf b]
      exact hbid
    · intro b hb
      obtain ⟨c, hc, rfl⟩ := List.mem_map.mp hb
      rw [hidf c]
      by_cases hcb : (c.id == book_id) = true
      · have hcbid : c.id = book_id := by simpa using hcb
        rw [hcbid, hactng, if_pos (beq_self_eq_true book_id)]
        rfl
      · have hcbid : c.id ≠ book_id := by simpa using hcb
        rw [activeRecords_map_eq _ db.borrows c.id hbookg (hfix c.id hcbid)]
        rw [if_neg (by simpa using hcb)]
        exact hav c hc
    · intro b hb
      obtain ⟨c, hc, rfl⟩ := List.mem_map.mp hb
      rw [hidf c]
      by_cases hcb : (c.id == book_id) = true
      · have hcbid : c.id = book_id := by simpa using hcb
        rw [hcbid, hactng]
        exact Nat.zero_le 1
      · have hcbid : c.id ≠ book_id := by simpa using hcb
        rw [activeRecords_map_eq _ db.borrows c.id hbookg (hfix c.id hcbid)]
        exact hone c hc

theorem wf_seedDB : WF seedDB := by decide

theorem reachable_wf (db : DB) (h : Reachable db) : WF db := by
  induction h with
  | seed => exact wf_seedDB
  | createUserStep db un pw role _ ih => exact wf_create_user db un pw role ih
  | addBookStep db t a _ ih => exact wf_add_book db t a ih
  | updateBookStep db bid t a _ ih => exact wf_update_book db bid t a ih
  | deleteBookStep db bid _ ih => exact wf_delete_book db bid ih
  | borrowStep db now uid bid _ ih => exact wf_borrow_book db now uid bid ih
  | returnStep db now uid bid _ ih => exact wf_return_book db now uid bid ih

/-- C1: in every state reachable from the seeded initial state, a book's
`available` flag is true exactly when no ledger row for it has null
`returned_at`, and no book ever has more than one active ledger row. -/
theorem availability_invariant (db : DB) (h : Reachable db) :
    ∀ b ∈ db.books,
      (b.available = true ↔ activeRecords db.borrows b.id = []) ∧
      (activeRecords db.borrows b.id).length ≤ 1 := by
  obtain ⟨_, _, _, _, _, hav, hone⟩ := reachable_wf db h
  intro b hb
  refine ⟨?_, hone b hb⟩
  rw [hav b hb]
  exact List.isEmpty_iff

/-- C1 witness: in the reachable state obtained by borrowing book 1 from the
seeded state, book 1 is unavailable and carries exactly one active row. -/
theorem availability_invariant_witness :
    ((⟨1, "The Midnight Kite of Varanasi", "Arunika Senapati", false⟩ : Book).available
        = true ↔
      activeRecords (borrow_book seedDB 0 1 1).2.borrows 1 = []) ∧
    (activeRecords (borrow_book seedDB 0 1 1).2.borrows 1).length ≤ 1 :=
  availability_invariant (borrow_book seedDB 0 1 1).2
    (Reachable.borrowStep seedDB 0 1 1 Reachable.seed)
    ⟨1, "The Midnight Kite of Varanasi", "Arunika Senapati", false⟩ (by decide)

/-- C4: from any well-formed state in which the book exists and is available,
borrowing then returning it (with a monotone clock) succeeds twice, restores
the catalog — in particular the book is available again — and appends exactly
one new ledger row for the pair, with `returned_at` set and
`borrowed_at ≤ returned_at`. -/
theorem borrow_return_round_trip (db : DB) (t1 t2 user_id book_id : Nat) (bk : Book)
    (hwf : WF db) (hfind : get_book_by_id db book_id = some bk)
    (havail : bk.available = true) (hclock : t1 ≤ t2) :
    (borrow_book db t1 user_id book_id).1 = true ∧
    (return_book (borrow_book db t1 user_id book_id).2 t2 user_id book_id).1 = true ∧
    (return_book (borrow_book db t1 user_id book_id).2 t2 user_id book_id).2.books
      = db.books ∧
    get_book_by_id
        (return_book (borrow_book db t1 user_id book_id).2 t2 user_id book_id).2
        book_id
      = some bk ∧
    (return_book (borrow_book db t1 user_id book_id).2 t2 user_id book_id).2.borrows
      = db.borrows ++ [⟨db.nextBorrowId, user_id, book_id, t1, some t2⟩] ∧
    t1 ≤ t2 := by
  obtain ⟨hnb, hblt, hnr, hrlt, href, hav, hone⟩ := hwf
  unfold get_book_by_id at hfind
  have hbkmem := List.mem_of_find?_eq_some hfind
  have hbkid : bk.id = book_id := by simpa using List.find?_some hfind
  have hb := borrow_book_succeeds db t1 user_id book_id bk hfind havail
  rw [hb]
  dsimp only
  have hact : activeRecords db.borrows book_id = [] := by
    have h1 := hav bk hbkmem
    rw [havail, hbkid] at h1
    exact List.isEmpty_iff.mp (by rw [← h1])
  have hnone : db.borrows.find? (activeFor user_id book_id) = none := by
    rw [List.find?_eq_none]
    intro r hr hcon
    unfold activeFor at hcon
    rw [Bool.and_eq_true, Bool.and_eq_true] at hcon
    have h1 : r.book_id = book_id := by simpa using hcon.1.2
    have h2 : r ∈ activeRecords db.borrows book_id := by
      unfold activeRecords
      refine List.mem_filter.mpr ⟨hr, ?_⟩
      rw [Bool.and_eq_true]
      exact ⟨by simpa using h1, hcon.2⟩
    rw [hact] at h2
    cases h2
  have hfret : (db.borrows ++
        [(⟨db.nextBorrowId, user_id, book_id, t1, none⟩ : BorrowRecord)]).find?
        (activeFor user_id book_id)
      = some ⟨db.nextBorrowId, user_id, book_id, t1, none⟩ := by
    rw [List.find?_append, hnone, Option.none_or]
    rw [List.find?_cons_of_pos]
    unfold activeFor
    simp
  have hr := return_book_succeeds
    { db with
        borrows := db.borrows ++ [⟨db.nextBorrowId, user_id, book_id, t1, none⟩],
        books := db.books.map (fun b =>
          if b.id == book_id then { b with available := false } else b),
        nextBorrowId := db.nextBorrowId + 1 }
    t2 user_id book_id ⟨db.nextBorrowId, user_id, book_id, t1, none⟩ hfret
  rw [hr]
  dsimp only
  have hbooks : (db.books.map (fun b =>
        if b.id == book_id then { b with available := false } else b)).map
      (fun b => if b.id == book_id then { b with available := true } else b)
      = db.books := by
    rw [List.map_map]
    have hpt : ∀ b ∈ db.books,
        ((fun b => if b.id == book_id then { b with available := true } else b) ∘
          (fun b => if b.id == book_id then { b with available := false } else b)) b
          = b := by
      intro b hb
      by_cases hc : (b.id == book_id) = true
      · have hcid : b.id = book_id := by simpa using hc
        have hcb : b = bk :=
          book_eq_of_id_eq db.books hnb b bk hb hbkmem (by rw [hcid, hbkid])
        have hbav : b.available = true := by rw [hcb]; exact havail
        show (if (if (b.id == book_id) = true then
            ({ b with available := false } : Book) else b).id == book_id then
            { (if (b.id == book_id) = true then ({ b with available := false } : Book)
                else b) with available := true }
          else (if (b.id == book_id) = true then ({ b with available := false } : Book)
                else b)) = b
        rw [if_pos hc]
        rw [if_pos (show (({ b with available := false } : Book).id == book_id) = true
          from hc)]
        rw [← hbav]
      · show (if (if (b.id == book_id) = true then
            ({ b with available := false } : Book) else b).id == book_id then
            { (if (b.id == book_id) = true then ({ b with available := false } : Book)
                else b) with available := true }
          else (if (b.id == book_id) = true then ({ b with available := false } : Book)
                else b)) = b
        rw [if_neg hc, if_neg hc]
    rw [List.map_congr_left hpt, List.map_id']
  have hrows : ((db.borrows ++
        [(⟨db.nextBorrowId, user_id, book_id, t1, none⟩ : BorrowRecord)]).map
      (fun r => if r.id == (⟨db.nextBorrowId, user_id, book_id, t1,
            none⟩ : BorrowRecord).id
        then { r with returned_at := some t2 } else r))
      = db.borrows ++ [⟨db.nextBorrowId, user_id, book_id, t1, some t2⟩] := by
    rw [List.map_append, List.map_singleton]
    have h1 : db.borrows.map (fun r => if r.id == (⟨db.nextBorrowId, user_id, book_id,
          t1, none⟩ : BorrowRecord).id
        then { r with returned_at := some t2 } else r) = db.borrows := by
      have hpt : ∀ r ∈ db.borrows,
          (if r.id == (⟨db.nextBorrowId, user_id, book_id, t1,
              none⟩ : BorrowRecord).id
            then { r with returned_at := some t2 } else r) = r := by
        intro r hr
        have := hrlt r hr
        rw [if_neg (by simp; omega)]
      rw [List.map_congr_left hpt, List.map_id']
    rw [h1]
    rw [if_pos (beq_self_eq_true _)]
  refine ⟨rfl, rfl, hbooks, ?_, hrows, hclock⟩
  unfold get_book_by_id
  dsimp only
  rw [hbooks]
  exact hfind

/-- C4 witness: user 2 borrows and returns the available book 1 of `exDB`
at times 100 and 110. -/
theorem borrow_return_round_trip_witness :
    (borrow_book exDB 100 2 1).1 = true ∧
    (return_book (borrow_book exDB 100 2 1).2 110 2 1).1 = true ∧
    (return_book (borrow_book exDB 100 2 1).2 110 2 1).2.books = exDB.books ∧
    get_book_by_id (return_book (borrow_book exDB 100 2 1).2 110 2 1).2 1
      = some ⟨1, "Whispers of the Monsoon", "Rohan Mehra", true⟩ ∧
    (return_book (borrow_book exDB 100 2 1).2 110 2 1).2.borrows
      = exDB.borrows ++ [⟨3, 2, 1, 100, some 110⟩] ∧
    (100 : Nat) ≤ 110 :=
  borrow_return_round_trip exDB 100 110 2 1
    ⟨1, "Whispers of the Monsoon", "Rohan Mehra", true⟩ (by decide) (by decide) rfl
    (by decide)

end Library
